import Mathlib

/-
  Verification of the shelf-pack rectangle bin packer (single C++ header,
  `include/shelf-pack.hpp`).  The data model and every operation below are
  translated directly from that source:

  - `Bin`       mirrors `struct Bin` (the global id generator used when the
                caller passes id = -1 is not modelled; every call site below
                passes the id through unchanged, exactly as `packOne` does).
  - `Shelf`     mirrors `class Shelf` with fields x_, y_, w_, h_, wfree_.
  - `ShelfPack` mirrors `class ShelfPack` with width_, height_, autoResize_,
                shelves_, stats_ (the `std::map` is modelled as a total
                function from height to count, absent keys reading 0).

  C++ `int32_t` values are modelled as `Int`; none of the verified claims
  concerns wrap-around behaviour, and the source itself would have undefined
  behaviour on signed overflow.  The recursive auto-resize retry in
  `ShelfPack::packOne` is modelled with an explicit fuel parameter.
-/

namespace Mapbox

/-- A requested or placed rectangle, mirroring `struct Bin`. -/
structure Bin where
  id : Int
  w : Int
  h : Int
  x : Int
  y : Int
  deriving DecidableEq, Repr

/-- A horizontal strip, mirroring `class Shelf` (fields x_, y_, w_, h_, wfree_). -/
structure Shelf where
  x : Int
  y : Int
  w : Int
  h : Int
  wfree : Int
  deriving DecidableEq, Repr

/-- The `Shelf` constructor: `Shelf(y, w, h) : x_(0), y_(y), w_(w), h_(h), wfree_(w)`. -/
def Shelf.make (y w h : Int) : Shelf :=
  { x := 0, y := y, w := w, h := h, wfree := w }

/-- `Shelf::alloc`: fail if `w > wfree_ || h > h_`; otherwise place the bin at
the cursor `x_`, advance the cursor by `w` and shrink `wfree_` by `w`. -/
def Shelf.alloc (s : Shelf) (id w h : Int) : Option Bin × Shelf :=
  if s.wfree < w ∨ s.h < h then
    (Option.none, s)
  else
    (Option.some { id := id, w := w, h := h, x := s.x, y := s.y },
     { s with x := s.x + w, wfree := s.wfree - w })

/-- `Shelf::resize`: `wfree_ += (w - w_); w_ = w; return true;` (unconditional). -/
def Shelf.resize (s : Shelf) (w : Int) : Bool × Shelf :=
  (true, { s with wfree := s.wfree + (w - s.w), w := w })

/-- The packer, mirroring `class ShelfPack`. -/
structure ShelfPack where
  width : Int
  height : Int
  autoResize : Bool
  shelves : List Shelf
  stats : Int → Int

/-- The `ShelfPack` constructor: `width_ = w > 0 ? w : 64; height_ = h > 0 ? h : 64;`. -/
def ShelfPack.make (w h : Int) (autoResize : Bool) : ShelfPack :=
  { width := if w > 0 then w else 64,
    height := if h > 0 then h else 64,
    autoResize := autoResize,
    shelves := [],
    stats := fun _ => 0 }

/-- `ShelfPack::count`: `stats_[h]++`. -/
def ShelfPack.count (sp : ShelfPack) (h : Int) : ShelfPack :=
  { sp with stats := fun k => if k = h then sp.stats k + 1 else sp.stats k }

/-- `ShelfPack::resize`: store the new width and height, resize every shelf to
the new width, and return `true` (unconditionally). -/
def ShelfPack.resize (sp : ShelfPack) (w h : Int) : Bool × ShelfPack :=
  (true,
   { sp with width := w, height := h,
             shelves := sp.shelves.map (fun s => (s.resize w).2) })

/-- `ShelfPack::clear`: `shelves_.clear(); stats_.clear();`. -/
def ShelfPack.clear (sp : ShelfPack) : ShelfPack :=
  { sp with shelves := [], stats := fun _ => 0 }

/-- The initial value of `best.waste` in `ShelfPack::packOne`: `INT32_MAX`. -/
def int32Max : Int := 2147483647

/-- The shelf-scanning loop of `ShelfPack::packOne`.  `i` is the index of the
first shelf of `l` in the full shelf list, `bestIdx`/`bestWaste` mirror the
`best` record (`pshelf = NULL` is `Option.none`, `waste = INT32_MAX` is
`int32Max`).  Returns `some i` when shelf `i` was selected, either by the
exact-height early return or as the best-waste candidate after the full scan;
returns `none` when no shelf qualifies. -/
def packScan (w h : Int) : List Shelf → Nat → Option Nat → Int → Option Nat
  | [], _, bestIdx, _ => bestIdx
  | shelf :: rest, i, bestIdx, bestWaste =>
    if h = shelf.h ∧ w ≤ shelf.wfree then
      Option.some i
    else if shelf.h < h ∨ shelf.wfree < w then
      packScan w h rest (i + 1) bestIdx bestWaste
    else if (h < shelf.h ∧ w ≤ shelf.wfree) ∧ shelf.h - h < bestWaste then
      packScan w h rest (i + 1) (Option.some i) (shelf.h - h)
    else
      packScan w h rest (i + 1) bestIdx bestWaste

/-- The running `y` accumulator of the scan loop after it has visited every
shelf: the sum of all shelf heights. -/
def shelvesHeight (l : List Shelf) : Int :=
  (l.map Shelf.h).sum

/-- Allocate into shelf `i` of the packer (the `shelf.alloc` / `best.pshelf->alloc`
call sites of `ShelfPack::packOne`). -/
def ShelfPack.allocAt (sp : ShelfPack) (i : Nat) (id w h : Int) : Option Bin × ShelfPack :=
  match sp.shelves[i]? with
  | Option.none => (Option.none, sp)
  | Option.some shelf =>
    let r := shelf.alloc id w h
    (r.1, { sp with shelves := sp.shelves.set i r.2 })

/-- The grown width computed in the auto-resize branch of `ShelfPack::packOne`:
`if (w1 <= h1 || w > w1) w2 = max(w, w1) * 2;` else keep `w1`. -/
def ShelfPack.growW (sp : ShelfPack) (w : Int) : Int :=
  if sp.width ≤ sp.height ∨ sp.width < w then max w sp.width * 2 else sp.width

/-- The grown height computed in the auto-resize branch of `ShelfPack::packOne`:
`if (h1 < w1 || h > h1) h2 = max(h, h1) * 2;` else keep `h1`. -/
def ShelfPack.growH (sp : ShelfPack) (h : Int) : Int :=
  if sp.height < sp.width ∨ sp.height < h then max h sp.height * 2 else sp.height

/-- The body of `ShelfPack::packOne`: scan the shelves, allocate into the
selected shelf, otherwise open a new shelf if it fits, otherwise (with
auto-resize on) grow the surface and retry through the `retry` continuation,
otherwise report no space. -/
def ShelfPack.packOneBody (sp : ShelfPack) (id w h : Int)
    (retry : ShelfPack → Option Bin × ShelfPack) : Option Bin × ShelfPack :=
  match packScan w h sp.shelves 0 Option.none int32Max with
  | Option.some i => (sp.count h).allocAt i id w h
  | Option.none =>
    let y := shelvesHeight sp.shelves
    if h ≤ sp.height - y ∧ w ≤ sp.width then
      let sp1 := sp.count h
      let r := (Shelf.make y sp.width h).alloc id w h
      (r.1, { sp1 with shelves := sp1.shelves ++ [r.2] })
    else if sp.autoResize then
      retry ((sp.resize (sp.growW w) (sp.growH h)).2)
    else
      (Option.none, sp)

/-- `ShelfPack::packOne`, with the recursive auto-resize retry driven by an
explicit fuel parameter (out of fuel, the model reports failure without
touching the state; the C++ recursion has no such case). -/
def ShelfPack.packOne : Nat → ShelfPack → Int → Int → Int → Option Bin × ShelfPack
  | 0, sp, id, w, h => ShelfPack.packOneBody sp id w h (fun _ => (Option.none, sp))
  | Nat.succ fuel1, sp, id, w, h =>
    ShelfPack.packOneBody sp id w h
      (fun sp1 => ShelfPack.packOne fuel1 sp1 id w h)

/-- The per-bin loop of `ShelfPack::pack`, returning the collected results,
the (possibly in-place updated) input bins, and the final packer state. -/
def ShelfPack.packLoop : Nat → ShelfPack → List Bin → Bool → List Bin × List Bin × ShelfPack
  | _, sp, [], _ => ([], [], sp)
  | fuel, sp, bin :: rest, inPlace =>
    if bin.w ≠ 0 ∧ bin.h ≠ 0 then
      let r := ShelfPack.packOne fuel sp bin.id bin.w bin.h
      match r.1 with
      | Option.none =>
        let t := ShelfPack.packLoop fuel r.2 rest inPlace
        (t.1, bin :: t.2.1, t.2.2)
      | Option.some b =>
        let bin1 := if inPlace then { bin with x := b.x, y := b.y } else bin
        let t := ShelfPack.packLoop fuel r.2 rest inPlace
        (b :: t.1, bin1 :: t.2.1, t.2.2)
    else
      let t := ShelfPack.packLoop fuel sp rest inPlace
      (t.1, bin :: t.2.1, t.2.2)

/-- The used width of a shelf, `shelf.w() - shelf.wfree()`. -/
def usedW (s : Shelf) : Int := s.w - s.wfree

/-- The shrunk width computed at the end of `ShelfPack::pack`:
`w2 = std::max(shelf.w() - shelf.wfree(), w2)` folded over the shelves,
starting from 0. -/
def shrinkW (l : List Shelf) : Int :=
  l.foldl (fun acc s => max (usedW s) acc) 0

/-- `ShelfPack::pack`: run the per-bin loop, then, when at least one shelf
exists, shrink the surface to the bounding box of the used space. -/
def ShelfPack.pack (fuel : Nat) (sp : ShelfPack) (bins : List Bin) (inPlace : Bool) :
    List Bin × List Bin × ShelfPack :=
  let t := ShelfPack.packLoop fuel sp bins inPlace
  if t.2.2.shelves ≠ [] then
    (t.1, t.2.1, (t.2.2.resize (shrinkW t.2.2.shelves) (shelvesHeight t.2.2.shelves)).2)
  else
    t

/-- The shelf-collection invariant maintained by the packer: every shelf spans
the surface width, has a nonnegative used part and free part, and a
nonnegative height; the shelf heights fit in the surface height. -/
def ShelfPack.Inv (sp : ShelfPack) : Prop :=
  (∀ s ∈ sp.shelves, s.w = sp.width ∧ 0 ≤ s.wfree ∧ s.wfree ≤ s.w ∧ 0 ≤ s.h) ∧
  shelvesHeight sp.shelves ≤ sp.height

instance (sp : ShelfPack) : Decidable sp.Inv := by
  unfold ShelfPack.Inv
  infer_instance

/-! ### Basic lemmas about the embedded operations -/

lemma packOne_zero (sp : ShelfPack) (id w h : Int) :
    ShelfPack.packOne 0 sp id w h =
      ShelfPack.packOneBody sp id w h (fun _ => (Option.none, sp)) := rfl

lemma packOne_succ (fuel1 : Nat) (sp : ShelfPack) (id w h : Int) :
    ShelfPack.packOne (Nat.succ fuel1) sp id w h =
      ShelfPack.packOneBody sp id w h
        (fun sp1 => ShelfPack.packOne fuel1 sp1 id w h) := rfl

lemma packOneBody_scan_some (sp : ShelfPack) (id w h : Int)
    (retry : ShelfPack → Option Bin × ShelfPack) (i : Nat)
    (hs : packScan w h sp.shelves 0 Option.none int32Max = Option.some i) :
    ShelfPack.packOneBody sp id w h retry = (sp.count h).allocAt i id w h := by
  unfold ShelfPack.packOneBody
  rw [hs]

lemma packOne_scan_some (fuel : Nat) (sp : ShelfPack) (id w h : Int) (i : Nat)
    (hs : packScan w h sp.shelves 0 Option.none int32Max = Option.some i) :
    ShelfPack.packOne fuel sp id w h = (sp.count h).allocAt i id w h := by
  cases fuel with
  | zero => rw [packOne_zero, packOneBody_scan_some _ _ _ _ _ _ hs]
  | succ fuel1 => rw [packOne_succ, packOneBody_scan_some _ _ _ _ _ _ hs]

lemma packOneBody_new_shelf (sp : ShelfPack) (id w h : Int)
    (retry : ShelfPack → Option Bin × ShelfPack)
    (hs : packScan w h sp.shelves 0 Option.none int32Max = Option.none)
    (hfit : h ≤ sp.height - shelvesHeight sp.shelves ∧ w ≤ sp.width) :
    ShelfPack.packOneBody sp id w h retry =
      (let r := (Shelf.make (shelvesHeight sp.shelves) sp.width h).alloc id w h
       (r.1, { sp.count h with shelves := sp.shelves ++ [r.2] })) := by
  unfold ShelfPack.packOneBody
  rw [hs]
  simp only [hfit, and_self, if_true, ShelfPack.count]

lemma packOneBody_grow (sp : ShelfPack) (id w h : Int)
    (retry : ShelfPack → Option Bin × ShelfPack)
    (hs : packScan w h sp.shelves 0 Option.none int32Max = Option.none)
    (hnofit : ¬(h ≤ sp.height - shelvesHeight sp.shelves ∧ w ≤ sp.width))
    (hAR : sp.autoResize = true) :
    ShelfPack.packOneBody sp id w h retry =
      retry ((sp.resize (sp.growW w) (sp.growH h)).2) := by
  unfold ShelfPack.packOneBody
  rw [hs]
  simp only [hnofit, if_false, hAR, if_true]

lemma packOneBody_no_space (sp : ShelfPack) (id w h : Int)
    (retry : ShelfPack → Option Bin × ShelfPack)
    (hs : packScan w h sp.shelves 0 Option.none int32Max = Option.none)
    (hnofit : ¬(h ≤ sp.height - shelvesHeight sp.shelves ∧ w ≤ sp.width))
    (hAR : sp.autoResize = false) :
    ShelfPack.packOneBody sp id w h retry = (Option.none, sp) := by
  unfold ShelfPack.packOneBody
  rw [hs]
  simp only [hnofit, if_false, hAR, Bool.false_eq_true]

/-! ### List helpers -/

lemma getElem?_append_cons {α : Type} (l1 l2 : List α) (s : α) :
    (l1 ++ s :: l2)[l1.length]? = Option.some s := by
  induction l1 with
  | nil => simp
  | cons a t ih => simpa using ih

lemma set_append_cons {α : Type} (l1 l2 : List α) (s x : α) :
    (l1 ++ s :: l2).set l1.length x = l1 ++ x :: l2 := by
  induction l1 with
  | nil => rfl
  | cons a t ih => simp [ih]

/-! ### Properties of the shelf scan -/

/-- If the first shelf with exactly the requested height and enough free width
sits after the prefix `l1`, the scan selects it, whatever best-waste candidate
has been recorded so far and whatever comes after it. -/
lemma packScan_exact_first (w h : Int) (l1 : List Shelf) (s : Shelf) (l2 : List Shelf) :
    ∀ (i : Nat) (acc : Option Nat) (bw : Int),
      (∀ t ∈ l1, ¬(h = t.h ∧ w ≤ t.wfree)) → h = s.h → w ≤ s.wfree →
      packScan w h (l1 ++ s :: l2) i acc bw = Option.some (i + l1.length) := by
  induction l1 with
  | nil =>
    intro i acc bw _ hh hw
    rw [List.nil_append, packScan, if_pos ⟨hh, hw⟩]
    simp
  | cons a t ih =>
    intro i acc bw hb hh hw
    have ha : ¬(h = a.h ∧ w ≤ a.wfree) := hb a (List.mem_cons_self a t)
    have ht : ∀ u ∈ t, ¬(h = u.h ∧ w ≤ u.wfree) := fun u hu => hb u (List.mem_cons_of_mem a hu)
    rw [List.cons_append, packScan, if_neg ha]
    split_ifs with h2 h3
    · rw [ih (i + 1) acc bw ht hh hw]
      simp only [List.length_cons, Option.some.injEq]
      omega
    · rw [ih (i + 1) (Option.some i) (a.h - h) ht hh hw]
      simp only [List.length_cons, Option.some.injEq]
      omega
    · rw [ih (i + 1) acc bw ht hh hw]
      simp only [List.length_cons, Option.some.injEq]
      omega

/-- A recorded best candidate survives the rest of the scan when no later shelf
is an exact match and no later shelf strictly beats the recorded waste. -/
lemma packScan_keep (w h : Int) (l : List Shelf) :
    ∀ (i j : Nat) (bw : Int),
      (∀ t ∈ l, ¬(h = t.h ∧ w ≤ t.wfree) ∧ ¬((h < t.h ∧ w ≤ t.wfree) ∧ t.h - h < bw)) →
      packScan w h l i (Option.some j) bw = Option.some j := by
  induction l with
  | nil => intro i j bw _; rfl
  | cons a t ih =>
    intro i j bw hb
    obtain ⟨hna, hnc⟩ := hb a (List.mem_cons_self a t)
    have ht : ∀ u ∈ t, ¬(h = u.h ∧ w ≤ u.wfree) ∧ ¬((h < u.h ∧ w ≤ u.wfree) ∧ u.h - h < bw) :=
      fun u hu => hb u (List.mem_cons_of_mem a hu)
    rw [packScan, if_neg hna]
    by_cases h2 : a.h < h ∨ a.wfree < w
    · rw [if_pos h2]
      exact ih (i + 1) j bw ht
    · rw [if_neg h2, if_neg hnc]
      exact ih (i + 1) j bw ht

/-- With no exact match anywhere, the scan selects the first shelf attaining
the minimal waste: every earlier candidate has strictly larger waste, every
later candidate has at least as large a waste. -/
lemma packScan_best_first (w h : Int) (l1 : List Shelf) (s : Shelf) (l2 : List Shelf)
    (hch : h < s.h) (hcw : w ≤ s.wfree)
    (hafter : ∀ t ∈ l2, ¬(h = t.h ∧ w ≤ t.wfree) ∧ (h < t.h ∧ w ≤ t.wfree → s.h - h ≤ t.h - h)) :
    ∀ (i : Nat) (acc : Option Nat) (bw : Int), bw ≤ int32Max → s.h - h < bw →
      (∀ t ∈ l1, ¬(h = t.h ∧ w ≤ t.wfree) ∧
        ((h < t.h ∧ w ≤ t.wfree) ∧ t.h - h < int32Max → s.h - h < t.h - h)) →
      packScan w h (l1 ++ s :: l2) i acc bw = Option.some (i + l1.length) := by
  induction l1 with
  | nil =>
    intro i acc bw hbw hlt _
    have hne : ¬(h = s.h ∧ w ≤ s.wfree) := fun hc => absurd hc.1 (ne_of_lt hch)
    have hns : ¬(s.h < h ∨ s.wfree < w) := by
      push_neg
      exact ⟨le_of_lt hch, hcw⟩
    rw [List.nil_append, packScan, if_neg hne, if_neg hns, if_pos ⟨⟨hch, hcw⟩, hlt⟩]
    rw [packScan_keep w h l2 (i + 1) i (s.h - h)
      (fun t ht => ⟨(hafter t ht).1, fun hc => absurd ((hafter t ht).2 hc.1) (not_le.2 hc.2)⟩)]
    simp
  | cons a t ih =>
    intro i acc bw hbw hlt hbefore
    obtain ⟨hna, himp⟩ := hbefore a (List.mem_cons_self a t)
    have ht : ∀ u ∈ t, ¬(h = u.h ∧ w ≤ u.wfree) ∧
        ((h < u.h ∧ w ≤ u.wfree) ∧ u.h - h < int32Max → s.h - h < u.h - h) :=
      fun u hu => hbefore u (List.mem_cons_of_mem a hu)
    rw [List.cons_append, packScan, if_neg hna]
    split_ifs with h2 h3
    · rw [ih (i + 1) acc bw hbw hlt ht]
      simp only [List.length_cons, Option.some.injEq]
      omega
    · have hwa : a.h - h < int32Max := lt_of_lt_of_le h3.2 hbw
      have hlt2 : s.h - h < a.h - h := himp ⟨h3.1, hwa⟩
      rw [ih (i + 1) (Option.some i) (a.h - h) (le_of_lt hwa) hlt2 ht]
      simp only [List.length_cons, Option.some.injEq]
      omega
    · rw [ih (i + 1) acc bw hbw hlt ht]
      simp only [List.length_cons, Option.some.injEq]
      omega

/-- Whenever the scan selects a shelf that does not come from the incoming
accumulator, that shelf exists and can hold the request. -/
lemma packScan_some_good (w h : Int) (l : List Shelf) :
    ∀ (i : Nat) (acc : Option Nat) (bw : Int) (j : Nat),
      packScan w h l i acc bw = Option.some j →
      acc = Option.some j ∨
        ∃ k s, l[k]? = Option.some s ∧ j = i + k ∧ w ≤ s.wfree ∧ h ≤ s.h := by
  induction l with
  | nil =>
    intro i acc bw j heq
    exact Or.inl heq
  | cons a t ih =>
    intro i acc bw j heq
    rw [packScan] at heq
    split_ifs at heq with h1 h2 h3
    · refine Or.inr ⟨0, a, by simp, ?_, h1.2, le_of_eq h1.1⟩
      simpa using heq.symm
    · rcases ih _ _ _ _ heq with hacc | ⟨k, s, hk, hj, hws⟩
      · exact Or.inl hacc
      · exact Or.inr ⟨k + 1, s, by simpa using hk, by omega, hws⟩
    · rcases ih _ _ _ _ heq with hacc | ⟨k, s, hk, hj, hws⟩
      · refine Or.inr ⟨0, a, by simp, ?_, h3.1.2, le_of_lt h3.1.1⟩
        have : i = j := by simpa using hacc
        omega
      · exact Or.inr ⟨k + 1, s, by simpa using hk, by omega, hws⟩
    · rcases ih _ _ _ _ heq with hacc | ⟨k, s, hk, hj, hws⟩
      · exact Or.inl hacc
      · exact Or.inr ⟨k + 1, s, by simpa using hk, by omega, hws⟩

lemma alloc_fail_eq (s : Shelf) (id w h : Int) (hc : s.wfree < w ∨ s.h < h) :
    s.alloc id w h = (Option.none, s) := by
  unfold Shelf.alloc
  rw [if_pos hc]

lemma alloc_success_eq (s : Shelf) (id w h : Int) (hc : ¬(s.wfree < w ∨ s.h < h)) :
    s.alloc id w h =
      (Option.some { id := id, w := w, h := h, x := s.x, y := s.y },
       { s with x := s.x + w, wfree := s.wfree - w }) := by
  unfold Shelf.alloc
  rw [if_neg hc]

/-- Allocation into an existing shelf that can hold the request. -/
lemma allocAt_success (sp : ShelfPack) (i : Nat) (id w h : Int) (s : Shelf)
    (hget : sp.shelves[i]? = Option.some s) (hw : w ≤ s.wfree) (hh : h ≤ s.h) :
    sp.allocAt i id w h =
      (Option.some { id := id, w := w, h := h, x := s.x, y := s.y },
       { sp with shelves := sp.shelves.set i { s with x := s.x + w, wfree := s.wfree - w } }) := by
  have hcond : ¬(s.wfree < w ∨ s.h < h) := by push_neg; exact ⟨hw, hh⟩
  unfold ShelfPack.allocAt
  simp only [hget]
  unfold Shelf.alloc
  rw [if_neg hcond]

/-! ### Claim C1: exact-height match short-circuit -/

/-- Claim C1: if some shelf has height exactly `h` and free width at least `w`,
`packOne` allocates into the first such shelf in creation order and returns its
placement, regardless of any smaller-waste taller shelf elsewhere in the
collection and instead of opening a new shelf: the result is the bin placed at
that shelf cursor, the packer keeps its width and height, only that shelf is
advanced, and the diagnostic counter for `h` is bumped. -/
theorem packOne_exact_match_first (fuel : Nat) (sp : ShelfPack) (id w h : Int)
    (l1 : List Shelf) (s : Shelf) (l2 : List Shelf)
    (hsh : sp.shelves = l1 ++ s :: l2)
    (hbefore : ∀ t ∈ l1, ¬(h = t.h ∧ w ≤ t.wfree))
    (hexact : h = s.h) (hfree : w ≤ s.wfree) :
    ShelfPack.packOne fuel sp id w h =
      (Option.some { id := id, w := w, h := h, x := s.x, y := s.y },
       { sp with
           shelves := l1 ++ { s with x := s.x + w, wfree := s.wfree - w } :: l2,
           stats := fun k => if k = h then sp.stats k + 1 else sp.stats k }) := by
  have hscan : packScan w h sp.shelves 0 Option.none int32Max = Option.some l1.length := by
    rw [hsh]
    simpa using packScan_exact_first w h l1 s l2 0 Option.none int32Max hbefore hexact hfree
  rw [packOne_scan_some fuel sp id w h l1.length hscan]
  have hget : (sp.count h).shelves[l1.length]? = Option.some s := by
    show sp.shelves[l1.length]? = Option.some s
    rw [hsh]
    exact getElem?_append_cons l1 l2 s
  rw [allocAt_success (sp.count h) l1.length id w h s hget hfree (le_of_eq hexact)]
  have hset : (sp.count h).shelves.set l1.length { s with x := s.x + w, wfree := s.wfree - w } =
      l1 ++ { s with x := s.x + w, wfree := s.wfree - w } :: l2 := by
    show sp.shelves.set l1.length _ = _
    rw [hsh]
    exact set_append_cons l1 l2 s _
  rw [hset]
  rfl

/-- The shelves of the concrete packer used to witness claim C1: a taller
shelf first (waste 2), then the exact-height shelf, then a taller shelf of
smaller waste (waste 1). -/
def w1Shelf : Shelf := { x := 0, y := 0, w := 64, h := 12, wfree := 64 }

/-- The exact-height shelf of the C1 witness packer, with a nonzero cursor. -/
def w1Exact : Shelf := { x := 2, y := 12, w := 64, h := 10, wfree := 62 }

/-- The smaller-waste taller shelf placed after the exact match in the C1
witness packer. -/
def w1Late : Shelf := { x := 0, y := 22, w := 64, h := 11, wfree := 64 }

/-- The concrete packer of the C1 witness. -/
def w1Sp : ShelfPack :=
  { width := 64, height := 64, autoResize := false,
    shelves := [w1Shelf, w1Exact, w1Late], stats := fun _ => 0 }

/-- Witness for C1: at a concrete packer holding a waste-2 shelf, an exact
10-high shelf, and a later waste-1 shelf, a 5x10 request goes to the exact
shelf. -/
theorem packOne_exact_match_first_witness :
    w1Sp.shelves = [w1Shelf] ++ w1Exact :: [w1Late] ∧
    (∀ t ∈ [w1Shelf], ¬((10 : Int) = t.h ∧ (5 : Int) ≤ t.wfree)) ∧
    (10 : Int) = w1Exact.h ∧ (5 : Int) ≤ w1Exact.wfree ∧
    ShelfPack.packOne 3 w1Sp 7 5 10 =
      (Option.some { id := 7, w := 5, h := 10, x := w1Exact.x, y := w1Exact.y },
       { w1Sp with
           shelves := [w1Shelf] ++
             { w1Exact with x := w1Exact.x + 5, wfree := w1Exact.wfree - 5 } :: [w1Late],
           stats := fun k => if k = 10 then w1Sp.stats k + 1 else w1Sp.stats k }) :=
  ⟨rfl, by decide, by decide, by decide,
   packOne_exact_match_first 3 w1Sp 7 5 10 [w1Shelf] w1Exact [w1Late] rfl
     (by decide) (by decide) (by decide)⟩

/-! ### Claim C2: best-height-fit among taller shelves -/

/-- Claim C2: with no exact-height match anywhere, among shelves strictly
taller than the request with enough free width `packOne` allocates into the
shelf minimizing `shelf.h - h`, ties resolved in favour of the first shelf in
creation order: every earlier candidate has strictly larger waste, no later
candidate has smaller waste, and the selected shelf receives the bin. -/
theorem packOne_best_waste_first (fuel : Nat) (sp : ShelfPack) (id w h : Int)
    (l1 : List Shelf) (s : Shelf) (l2 : List Shelf)
    (hsh : sp.shelves = l1 ++ s :: l2)
    (hnoexact : ∀ t ∈ sp.shelves, ¬(h = t.h ∧ w ≤ t.wfree))
    (hch : h < s.h) (hcw : w ≤ s.wfree) (hmax : s.h - h < int32Max)
    (hbefore : ∀ t ∈ l1, (h < t.h ∧ w ≤ t.wfree) ∧ t.h - h < int32Max → s.h - h < t.h - h)
    (hafter : ∀ t ∈ l2, h < t.h ∧ w ≤ t.wfree → s.h - h ≤ t.h - h) :
    ShelfPack.packOne fuel sp id w h =
      (Option.some { id := id, w := w, h := h, x := s.x, y := s.y },
       { sp with
           shelves := l1 ++ { s with x := s.x + w, wfree := s.wfree - w } :: l2,
           stats := fun k => if k = h then sp.stats k + 1 else sp.stats k }) := by
  have hscan : packScan w h sp.shelves 0 Option.none int32Max = Option.some l1.length := by
    rw [hsh]
    have hafter2 : ∀ t ∈ l2,
        ¬(h = t.h ∧ w ≤ t.wfree) ∧ (h < t.h ∧ w ≤ t.wfree → s.h - h ≤ t.h - h) :=
      fun t ht =>
        ⟨hnoexact t (by rw [hsh]; exact List.mem_append_right l1 (List.mem_cons_of_mem s ht)),
         hafter t ht⟩
    have hbefore2 : ∀ t ∈ l1, ¬(h = t.h ∧ w ≤ t.wfree) ∧
        ((h < t.h ∧ w ≤ t.wfree) ∧ t.h - h < int32Max → s.h - h < t.h - h) :=
      fun t ht => ⟨hnoexact t (by rw [hsh]; exact List.mem_append_left _ ht), hbefore t ht⟩
    simpa using packScan_best_first w h l1 s l2 hch hcw hafter2 0 Option.none int32Max
      (le_refl _) hmax hbefore2
  rw [packOne_scan_some fuel sp id w h l1.length hscan]
  have hget : (sp.count h).shelves[l1.length]? = Option.some s := by
    show sp.shelves[l1.length]? = Option.some s
    rw [hsh]
    exact getElem?_append_cons l1 l2 s
  rw [allocAt_success (sp.count h) l1.length id w h s hget hcw (le_of_lt hch)]
  have hset : (sp.count h).shelves.set l1.length { s with x := s.x + w, wfree := s.wfree - w } =
      l1 ++ { s with x := s.x + w, wfree := s.wfree - w } :: l2 := by
    show sp.shelves.set l1.length _ = _
    rw [hsh]
    exact set_append_cons l1 l2 s _
  rw [hset]
  rfl

/-- The first shelf of the C2 witness packer: taller, waste 5 for a height-10
request. -/
def w2A : Shelf := { x := 0, y := 0, w := 64, h := 15, wfree := 64 }

/-- The second shelf of the C2 witness packer: waste 2, the first shelf
attaining the minimum. -/
def w2B : Shelf := { x := 1, y := 15, w := 64, h := 12, wfree := 63 }

/-- The third shelf of the C2 witness packer: also waste 2, tying with the
second shelf but coming later in creation order. -/
def w2C : Shelf := { x := 0, y := 27, w := 64, h := 12, wfree := 64 }

/-- The concrete packer of the C2 witness. -/
def w2Sp : ShelfPack :=
  { width := 64, height := 64, autoResize := false,
    shelves := [w2A, w2B, w2C], stats := fun _ => 0 }

/-- Witness for C2: a 5x10 request on shelves of heights 15, 12, 12 goes to
the first height-12 shelf — minimal waste, first-seen wins the tie. -/
theorem packOne_best_waste_first_witness :
    w2Sp.shelves = [w2A] ++ w2B :: [w2C] ∧
    (∀ t ∈ w2Sp.shelves, ¬((10 : Int) = t.h ∧ (5 : Int) ≤ t.wfree)) ∧
    (10 : Int) < w2B.h ∧ (5 : Int) ≤ w2B.wfree ∧ w2B.h - 10 < int32Max ∧
    (∀ t ∈ [w2A], ((10 : Int) < t.h ∧ (5 : Int) ≤ t.wfree) ∧ t.h - 10 < int32Max →
      w2B.h - 10 < t.h - 10) ∧
    (∀ t ∈ [w2C], (10 : Int) < t.h ∧ (5 : Int) ≤ t.wfree → w2B.h - 10 ≤ t.h - 10) ∧
    ShelfPack.packOne 4 w2Sp 9 5 10 =
      (Option.some { id := 9, w := 5, h := 10, x := w2B.x, y := w2B.y },
       { w2Sp with
           shelves := [w2A] ++ { w2B with x := w2B.x + 5, wfree := w2B.wfree - 5 } :: [w2C],
           stats := fun k => if k = 10 then w2Sp.stats k + 1 else w2Sp.stats k }) :=
  ⟨rfl, by decide, by decide, by decide, by decide, by decide, by decide,
   packOne_best_waste_first 4 w2Sp 9 5 10 [w2A] w2B [w2C] rfl (by decide) (by decide)
     (by decide) (by decide) (by decide) (by decide)⟩

/-! ### Claim C3: shrinking resize -/

/-- Claim C3 counterexample: `resize` to strictly smaller dimensions is not
rejected.  On a fresh 10x10 packer, `resize 5 5` returns `true` (not `false`)
and stores the smaller width and height; after packing one bin, the shrinking
resize also narrows the stored shelf to width 5. -/
theorem resize_shrink_accepted_counterexample :
    ((ShelfPack.make 10 10 false).resize 5 5).1 = true ∧
    ((ShelfPack.make 10 10 false).resize 5 5).2.width = 5 ∧
    ((ShelfPack.make 10 10 false).resize 5 5).2.height = 5 ∧
    ((ShelfPack.packOne 0 (ShelfPack.make 10 10 false) 1 4 4).2.resize 5 5).2.shelves.map Shelf.w
      = [5] :=
  ⟨rfl, rfl, rfl, rfl⟩

/-- Claim C3 amended: `ShelfPack.resize` never rejects.  For every packer and
every requested dimensions, including strictly smaller ones, it returns `true`,
stores the requested width and height, resizes every shelf to the new width,
and leaves the auto-resize flag and the diagnostic counters unchanged. -/
theorem resize_always_succeeds (sp : ShelfPack) (w h : Int) :
    (sp.resize w h).1 = true ∧
    (sp.resize w h).2.width = w ∧
    (sp.resize w h).2.height = h ∧
    (sp.resize w h).2.shelves = sp.shelves.map (fun s => (s.resize w).2) ∧
    (sp.resize w h).2.autoResize = sp.autoResize ∧
    (sp.resize w h).2.stats = sp.stats :=
  ⟨rfl, rfl, rfl, rfl, rfl, rfl⟩

/-! ### Claim C4: per-shelf allocation -/

/-- Claim C4: `Shelf.alloc` fails exactly when the request is wider than the
free width or taller than the shelf.  On success (under the cursor invariant
`x = w - wfree`) the bin sits at the used width before the call, at the shelf
`y`, the free width shrinks by exactly `w`, and a subsequent successful
allocation starts exactly where this one ended, so successive placements cover
`[priorUsedWidth, priorUsedWidth + w)` with strictly increasing ranges. -/
theorem shelf_alloc_spec (s : Shelf) (id w h : Int) (hx : s.x = s.w - s.wfree) :
    ((s.alloc id w h).1 = Option.none ↔ (s.wfree < w ∨ s.h < h)) ∧
    (∀ b, (s.alloc id w h).1 = Option.some b →
      b.x = s.w - s.wfree ∧ b.y = s.y ∧ b.w = w ∧ b.h = h ∧
      (s.alloc id w h).2.wfree = s.wfree - w ∧
      (s.alloc id w h).2.w = s.w ∧
      (s.alloc id w h).2.x = (s.w - s.wfree) + w ∧
      (∀ id2 w2 h2 b2, ((s.alloc id w h).2.alloc id2 w2 h2).1 = Option.some b2 →
        b2.x = (s.w - s.wfree) + w)) := by
  by_cases hc : s.wfree < w ∨ s.h < h
  · constructor
    · rw [alloc_fail_eq s id w h hc]
      simp [hc]
    · intro b hb
      rw [alloc_fail_eq s id w h hc] at hb
      exact absurd hb (by simp)
  · constructor
    · rw [alloc_success_eq s id w h hc]
      simp [hc]
    · intro b hb
      rw [alloc_success_eq s id w h hc] at hb
      simp only [Option.some.injEq] at hb
      subst hb
      refine ⟨by show s.x = s.w - s.wfree; omega, rfl, rfl, rfl, ?_, ?_, ?_, ?_⟩
      · rw [alloc_success_eq s id w h hc]
      · rw [alloc_success_eq s id w h hc]
      · rw [alloc_success_eq s id w h hc]
        show s.x + w = s.w - s.wfree + w
        omega
      · intro id2 w2 h2 b2 hb2
        rw [alloc_success_eq s id w h hc] at hb2
        by_cases hc2 : s.wfree - w < w2 ∨ s.h < h2
        · rw [alloc_fail_eq _ id2 w2 h2 hc2] at hb2
          exact absurd hb2 (by simp)
        · rw [alloc_success_eq _ id2 w2 h2 hc2] at hb2
          simp only [Option.some.injEq] at hb2
          subst hb2
          show s.x + w = s.w - s.wfree + w
          omega

/-- Witness for C4 at the concrete shelf `{x 3, y 0, w 10, h 4, wfree 7}` and
the request `2x3`. -/
theorem shelf_alloc_spec_witness :
    (Shelf.mk 3 0 10 4 7).x = (Shelf.mk 3 0 10 4 7).w - (Shelf.mk 3 0 10 4 7).wfree ∧
    ((((Shelf.mk 3 0 10 4 7).alloc 1 2 3).1 = Option.none ↔
        ((Shelf.mk 3 0 10 4 7).wfree < 2 ∨ (Shelf.mk 3 0 10 4 7).h < 3)) ∧
      (∀ b, ((Shelf.mk 3 0 10 4 7).alloc 1 2 3).1 = Option.some b →
        b.x = (Shelf.mk 3 0 10 4 7).w - (Shelf.mk 3 0 10 4 7).wfree ∧
        b.y = (Shelf.mk 3 0 10 4 7).y ∧ b.w = 2 ∧ b.h = 3 ∧
        ((Shelf.mk 3 0 10 4 7).alloc 1 2 3).2.wfree = (Shelf.mk 3 0 10 4 7).wfree - 2 ∧
        ((Shelf.mk 3 0 10 4 7).alloc 1 2 3).2.w = (Shelf.mk 3 0 10 4 7).w ∧
        ((Shelf.mk 3 0 10 4 7).alloc 1 2 3).2.x =
          ((Shelf.mk 3 0 10 4 7).w - (Shelf.mk 3 0 10 4 7).wfree) + 2 ∧
        (∀ id2 w2 h2 b2,
          (((Shelf.mk 3 0 10 4 7).alloc 1 2 3).2.alloc id2 w2 h2).1 = Option.some b2 →
          b2.x = ((Shelf.mk 3 0 10 4 7).w - (Shelf.mk 3 0 10 4 7).wfree) + 2))) :=
  ⟨by decide, shelf_alloc_spec (Shelf.mk 3 0 10 4 7) 1 2 3 (by decide)⟩

/-! ### Claim C5: opening a new shelf -/

/-- When the scan selects nothing and a new shelf of height `h` fits, `packOne`
appends the new shelf and places the bin at `(0, accumulated height)`. -/
lemma packOne_new_shelf_eq (fuel : Nat) (sp : ShelfPack) (id w h : Int)
    (hs : packScan w h sp.shelves 0 Option.none int32Max = Option.none)
    (hh : shelvesHeight sp.shelves + h ≤ sp.height) (hw : w ≤ sp.width) :
    ShelfPack.packOne fuel sp id w h =
      (Option.some { id := id, w := w, h := h, x := 0, y := shelvesHeight sp.shelves },
       { sp with
           shelves := sp.shelves ++
             [{ x := w, y := shelvesHeight sp.shelves, w := sp.width, h := h,
                wfree := sp.width - w }],
           stats := fun k => if k = h then sp.stats k + 1 else sp.stats k }) := by
  have hfit : h ≤ sp.height - shelvesHeight sp.shelves ∧ w ≤ sp.width := ⟨by omega, hw⟩
  have hcond : ¬((Shelf.make (shelvesHeight sp.shelves) sp.width h).wfree < w ∨
      (Shelf.make (shelvesHeight sp.shelves) sp.width h).h < h) := by
    push_neg
    exact ⟨hw, le_refl h⟩
  have hbody : ∀ retry, ShelfPack.packOneBody sp id w h retry =
      (Option.some { id := id, w := w, h := h, x := 0, y := shelvesHeight sp.shelves },
       { sp with
           shelves := sp.shelves ++
             [{ x := w, y := shelvesHeight sp.shelves, w := sp.width, h := h,
                wfree := sp.width - w }],
           stats := fun k => if k = h then sp.stats k + 1 else sp.stats k }) := by
    intro retry
    rw [packOneBody_new_shelf sp id w h retry hs hfit]
    rw [alloc_success_eq _ id w h hcond]
    simp only [Shelf.make, zero_add, ShelfPack.count]
  cases fuel with
  | zero => rw [packOne_zero, hbody]
  | succ f => rw [packOne_succ, hbody]

/-- Claim C5: when the scan selects no existing shelf, the accumulated shelf
height plus `h` fits in the surface height, and `w` fits in the surface width,
`packOne` appends a new shelf at `y = accumulated height` spanning the full
surface width with height `h`, and the bin becomes that shelf first placement
at `(0, accumulated height)` — this first allocation always succeeds. -/
theorem packOne_new_shelf_spec (fuel : Nat) (sp : ShelfPack) (id w h : Int)
    (hs : packScan w h sp.shelves 0 Option.none int32Max = Option.none)
    (hh : shelvesHeight sp.shelves + h ≤ sp.height) (hw : w ≤ sp.width) :
    ShelfPack.packOne fuel sp id w h =
      (Option.some { id := id, w := w, h := h, x := 0, y := shelvesHeight sp.shelves },
       { sp with
           shelves := sp.shelves ++
             [{ x := w, y := shelvesHeight sp.shelves, w := sp.width, h := h,
                wfree := sp.width - w }],
           stats := fun k => if k = h then sp.stats k + 1 else sp.stats k }) :=
  packOne_new_shelf_eq fuel sp id w h hs hh hw

/-- The concrete packer of the C5 witness: one 12-high shelf that is too short
in free width for the request, surface 64x64. -/
def w5Sp : ShelfPack :=
  { width := 64, height := 64, autoResize := false,
    shelves := [{ x := 60, y := 0, w := 64, h := 12, wfree := 4 }], stats := fun _ => 0 }

/-- Witness for C5: on a packer whose only shelf lacks free width, a 6x5
request opens a new shelf at the accumulated height 12 spanning the full
width. -/
theorem packOne_new_shelf_spec_witness :
    packScan 6 5 w5Sp.shelves 0 Option.none int32Max = Option.none ∧
    shelvesHeight w5Sp.shelves + 5 ≤ w5Sp.height ∧ (6 : Int) ≤ w5Sp.width ∧
    ShelfPack.packOne 2 w5Sp 11 6 5 =
      (Option.some { id := 11, w := 6, h := 5, x := 0, y := shelvesHeight w5Sp.shelves },
       { w5Sp with
           shelves := w5Sp.shelves ++
             [{ x := 6, y := shelvesHeight w5Sp.shelves, w := w5Sp.width, h := 5,
                wfree := w5Sp.width - 6 }],
           stats := fun k => if k = 5 then w5Sp.stats k + 1 else w5Sp.stats k }) :=
  ⟨by decide, by decide, by decide,
   packOne_new_shelf_spec 2 w5Sp 11 6 5 (by decide) (by decide) (by decide)⟩

/-! ### Claim C6: the growth policy -/

/-- Claim C6: when auto-resize must grow the surface, the retry runs on the
resized packer whose width is `max(w, width) * 2` exactly when
`width ≤ height` or the request is wider than the surface (otherwise the width
is kept), whose height is `max(h, height) * 2` exactly when `height < width`
or the request is taller than the surface (otherwise the height is kept); on a
square surface the width always grows while the height is kept whenever the
request is not taller than the surface; and every existing shelf is resized to
the new surface width. -/
theorem packOne_growth_policy (fuel : Nat) (sp : ShelfPack) (id w h : Int)
    (hAR : sp.autoResize = true)
    (hs : packScan w h sp.shelves 0 Option.none int32Max = Option.none)
    (hnofit : ¬(h ≤ sp.height - shelvesHeight sp.shelves ∧ w ≤ sp.width)) :
    ShelfPack.packOne (fuel + 1) sp id w h =
      ShelfPack.packOne fuel ((sp.resize (sp.growW w) (sp.growH h)).2) id w h ∧
    ((sp.width ≤ sp.height ∨ sp.width < w) → sp.growW w = max w sp.width * 2) ∧
    (¬(sp.width ≤ sp.height ∨ sp.width < w) → sp.growW w = sp.width) ∧
    ((sp.height < sp.width ∨ sp.height < h) → sp.growH h = max h sp.height * 2) ∧
    (¬(sp.height < sp.width ∨ sp.height < h) → sp.growH h = sp.height) ∧
    (sp.width = sp.height →
      sp.growW w = max w sp.width * 2 ∧ (h ≤ sp.height → sp.growH h = sp.height)) ∧
    (∀ t ∈ ((sp.resize (sp.growW w) (sp.growH h)).2).shelves, t.w = sp.growW w) := by
  refine ⟨?_, ?_, ?_, ?_, ?_, ?_, ?_⟩
  · rw [packOne_succ, packOneBody_grow sp id w h _ hs hnofit hAR]
  · intro hcond
    rw [ShelfPack.growW, if_pos hcond]
  · intro hcond
    rw [ShelfPack.growW, if_neg hcond]
  · intro hcond
    rw [ShelfPack.growH, if_pos hcond]
  · intro hcond
    rw [ShelfPack.growH, if_neg hcond]
  · intro hsq
    constructor
    · rw [ShelfPack.growW, if_pos (Or.inl (le_of_eq hsq))]
    · intro hhle
      rw [ShelfPack.growH, if_neg (by push_neg; exact ⟨le_of_eq hsq, hhle⟩)]
  · intro t ht
    simp only [ShelfPack.resize, List.mem_map] at ht
    obtain ⟨u, _, hu⟩ := ht
    rw [← hu]
    rfl

/-- The concrete packer of the C6 witness: a square 10x10 surface holding one
full-width 10-high shelf with no free width. -/
def w6Sp : ShelfPack :=
  { width := 10, height := 10, autoResize := true,
    shelves := [{ x := 10, y := 0, w := 10, h := 10, wfree := 0 }], stats := fun _ => 0 }

/-- Witness for C6: a second 10x10 request on the full square 10x10 packer
triggers growth; width doubles to 20 and height is kept at 10. -/
theorem packOne_growth_policy_witness :
    w6Sp.autoResize = true ∧
    packScan 10 10 w6Sp.shelves 0 Option.none int32Max = Option.none ∧
    ¬((10 : Int) ≤ w6Sp.height - shelvesHeight w6Sp.shelves ∧ (10 : Int) ≤ w6Sp.width) ∧
    (ShelfPack.packOne 3 w6Sp 2 10 10 =
      ShelfPack.packOne 2 ((w6Sp.resize (w6Sp.growW 10) (w6Sp.growH 10)).2) 2 10 10 ∧
    ((w6Sp.width ≤ w6Sp.height ∨ w6Sp.width < 10) → w6Sp.growW 10 = max 10 w6Sp.width * 2) ∧
    (¬(w6Sp.width ≤ w6Sp.height ∨ w6Sp.width < 10) → w6Sp.growW 10 = w6Sp.width) ∧
    ((w6Sp.height < w6Sp.width ∨ w6Sp.height < 10) → w6Sp.growH 10 = max 10 w6Sp.height * 2) ∧
    (¬(w6Sp.height < w6Sp.width ∨ w6Sp.height < 10) → w6Sp.growH 10 = w6Sp.height) ∧
    (w6Sp.width = w6Sp.height →
      w6Sp.growW 10 = max 10 w6Sp.width * 2 ∧ ((10 : Int) ≤ w6Sp.height → w6Sp.growH 10 = w6Sp.height)) ∧
    (∀ t ∈ ((w6Sp.resize (w6Sp.growW 10) (w6Sp.growH 10)).2).shelves, t.w = w6Sp.growW 10)) :=
  ⟨rfl, by decide, by decide,
   packOne_growth_policy 2 w6Sp 2 10 10 rfl (by decide) (by decide)⟩

/-! ### Claim C9: the per-shelf bookkeeping invariant -/

/-- The running sums of a width list: entry `i` is the sum of the widths
before position `i`. -/
def runningSums : List Int → List Int
  | [] => []
  | a :: rest => 0 :: (runningSums rest).map (fun v => a + v)

/-- Shelf states reachable through the operations the packer ever performs on
a shelf: creation by the constructor (from `packOne` opening a new shelf),
successful allocation (from `packOne` placing a bin), and resizing (from
`ShelfPack.resize`, the batch shrink in `pack`, and auto-resize growth).
`clear` only discards shelves, so it introduces no shelf state.  The second
index records the bins successfully allocated on the shelf, in order. -/
inductive ShelfReach : Shelf → List Bin → Prop where
  | make (y w h : Int) : ShelfReach (Shelf.make y w h) []
  | allocStep {s : Shelf} {bs : List Bin} {id w h : Int} {b : Bin}
      (hr : ShelfReach s bs) (hs : (s.alloc id w h).1 = Option.some b) :
      ShelfReach (s.alloc id w h).2 (bs ++ [b])
  | resizeStep {s : Shelf} {bs : List Bin} (w : Int) (hr : ShelfReach s bs) :
      ShelfReach (s.resize w).2 bs

lemma runningSums_append_one (ws : List Int) (v : Int) :
    runningSums (ws ++ [v]) = runningSums ws ++ [ws.sum] := by
  induction ws with
  | nil => simp [runningSums]
  | cons a t ih => simp [runningSums, ih, List.map_append]

/-- Claim C9: every shelf reachable through the packer operations satisfies
`wfree = w - (sum of placed bin widths)`, its cursor `x` equals that sum, and
each placed bin sits exactly at the sum of the widths of the bins placed
before it — allocation is append-only along the width axis, no hole is ever
reused. -/
theorem shelf_invariant_of_reach (s : Shelf) (bs : List Bin) (hr : ShelfReach s bs) :
    s.wfree = s.w - (bs.map Bin.w).sum ∧
    s.x = (bs.map Bin.w).sum ∧
    bs.map Bin.x = runningSums (bs.map Bin.w) := by
  induction hr with
  | make y w h => simp [Shelf.make, runningSums]
  | allocStep hr hs ih =>
    rename_i s1 bs1 id w h b
    obtain ⟨h1, h2, h3⟩ := ih
    by_cases hc : s1.wfree < w ∨ s1.h < h
    · rw [alloc_fail_eq s1 id w h hc] at hs
      exact absurd hs (by simp)
    · rw [alloc_success_eq s1 id w h hc] at hs
      simp only [Option.some.injEq] at hs
      rw [alloc_success_eq s1 id w h hc]
      subst hs
      refine ⟨?_, ?_, ?_⟩
      · show s1.wfree - w = s1.w - ((bs1 ++ [_]).map Bin.w).sum
        simp only [List.map_append, List.map_cons, List.map_nil, List.sum_append,
          List.sum_cons, List.sum_nil]
        omega
      · show s1.x + w = ((bs1 ++ [_]).map Bin.w).sum
        simp only [List.map_append, List.map_cons, List.map_nil, List.sum_append,
          List.sum_cons, List.sum_nil]
        omega
      · show (bs1 ++ [_]).map Bin.x = runningSums ((bs1 ++ [_]).map Bin.w)
        simp only [List.map_append, List.map_cons, List.map_nil]
        rw [runningSums_append_one]
        rw [h3, ← h2]
  | resizeStep w hr ih =>
    rename_i s1 bs1
    obtain ⟨h1, h2, h3⟩ := ih
    refine ⟨?_, ?_, ?_⟩
    · show s1.wfree + (w - s1.w) = w - (bs1.map Bin.w).sum
      omega
    · exact h2
    · exact h3

/-- Witness for C9: a shelf created as 10 wide and 5 high, after a successful
3x4 allocation, a resize to width 12, and a successful 4x5 allocation,
satisfies the bookkeeping invariant for its two placed bins. -/
theorem shelf_invariant_of_reach_witness :
    ((((Shelf.make 0 10 5).alloc 1 3 4).2.resize 12).2.alloc 2 4 5).2.wfree =
      ((((Shelf.make 0 10 5).alloc 1 3 4).2.resize 12).2.alloc 2 4 5).2.w -
        ((([] ++ [Bin.mk 1 3 4 0 0]) ++ [Bin.mk 2 4 5 3 0]).map Bin.w).sum ∧
    ((((Shelf.make 0 10 5).alloc 1 3 4).2.resize 12).2.alloc 2 4 5).2.x =
      ((([] ++ [Bin.mk 1 3 4 0 0]) ++ [Bin.mk 2 4 5 3 0]).map Bin.w).sum ∧
    (([] ++ [Bin.mk 1 3 4 0 0]) ++ [Bin.mk 2 4 5 3 0]).map Bin.x =
      runningSums ((([] ++ [Bin.mk 1 3 4 0 0]) ++ [Bin.mk 2 4 5 3 0]).map Bin.w) :=
  shelf_invariant_of_reach _ _
    (ShelfReach.allocStep
      (ShelfReach.resizeStep 12 (ShelfReach.allocStep (ShelfReach.make 0 10 5) rfl)) rfl)

/-! ### Claim C10: failing packOne leaves the packer unchanged -/

/-- Claim C10: with auto-resize disabled, whenever `packOne` reports no space,
the packer state after the call is exactly the state before it — width,
height, shelves and diagnostic counters included. -/
theorem packOne_failure_preserves_state (fuel : Nat) (sp : ShelfPack) (id w h : Int)
    (hAR : sp.autoResize = false)
    (hfail : (ShelfPack.packOne fuel sp id w h).1 = Option.none) :
    (ShelfPack.packOne fuel sp id w h).2 = sp := by
  rcases hscan : packScan w h sp.shelves 0 Option.none int32Max with _ | i
  · by_cases hfit : h ≤ sp.height - shelvesHeight sp.shelves ∧ w ≤ sp.width
    · exfalso
      rw [packOne_new_shelf_eq fuel sp id w h hscan (by omega) hfit.2] at hfail
      exact Option.noConfusion hfail
    · have heq : ShelfPack.packOne fuel sp id w h = (Option.none, sp) := by
        cases fuel with
        | zero => rw [packOne_zero, packOneBody_no_space _ _ _ _ _ hscan hfit hAR]
        | succ f => rw [packOne_succ, packOneBody_no_space _ _ _ _ _ hscan hfit hAR]
      rw [heq]
  · exfalso
    rcases packScan_some_good w h sp.shelves 0 Option.none int32Max i hscan with hacc |
      ⟨k, s, hk, hj, hws, hhs⟩
    · exact Option.noConfusion hacc
    · have hget : (sp.count h).shelves[i]? = Option.some s := by
        show sp.shelves[i]? = Option.some s
        rw [hj, Nat.zero_add]
        exact hk
      rw [packOne_scan_some fuel sp id w h i hscan,
        allocAt_success (sp.count h) i id w h s hget hws hhs] at hfail
      exact Option.noConfusion hfail

/-- The concrete packer of the C10 witness: a 10x10 surface whose single shelf
is full. -/
def w10Sp : ShelfPack :=
  { width := 10, height := 10, autoResize := false,
    shelves := [{ x := 10, y := 0, w := 10, h := 10, wfree := 0 }], stats := fun _ => 0 }

/-- Witness for C10: a second 10x10 request on a full 10x10 packer fails and
leaves the packer exactly as it was. -/
theorem packOne_failure_preserves_state_witness :
    w10Sp.autoResize = false ∧
    (ShelfPack.packOne 3 w10Sp 2 10 10).1 = Option.none ∧
    (ShelfPack.packOne 3 w10Sp 2 10 10).2 = w10Sp :=
  ⟨rfl, rfl, packOne_failure_preserves_state 3 w10Sp 2 10 10 rfl rfl⟩

/-! ### Facts about resize and the growth formulas -/

lemma shelvesHeight_map_resize (l : List Shelf) (w : Int) :
    shelvesHeight (l.map fun s => (s.resize w).2) = shelvesHeight l := by
  induction l with
  | nil => rfl
  | cons a t ih =>
    unfold shelvesHeight at *
    simp only [List.map_cons, List.sum_cons]
    rw [ih]
    rfl

lemma resize_shelvesHeight (sp : ShelfPack) (w h : Int) :
    shelvesHeight ((sp.resize w h).2).shelves = shelvesHeight sp.shelves :=
  shelvesHeight_map_resize sp.shelves w

lemma growW_ge (sp : ShelfPack) (w : Int) (hw : 0 ≤ w) : sp.width ≤ sp.growW w := by
  unfold ShelfPack.growW
  split_ifs with hc
  · have h1 : sp.width ≤ max w sp.width := le_max_right w sp.width
    have h2 : 0 ≤ max w sp.width := le_trans hw (le_max_left w sp.width)
    omega
  · exact le_refl sp.width

lemma growH_ge (sp : ShelfPack) (h : Int) (hh : 0 ≤ h) : sp.height ≤ sp.growH h := by
  unfold ShelfPack.growH
  split_ifs with hc
  · have h1 : sp.height ≤ max h sp.height := le_max_right h sp.height
    have h2 : 0 ≤ max h sp.height := le_trans hh (le_max_left h sp.height)
    omega
  · exact le_refl sp.height

lemma grow_strict (sp : ShelfPack) (w h : Int) (hW : 1 ≤ sp.width) (hH : 1 ≤ sp.height)
    (hw : 0 ≤ w) (hh : 0 ≤ h) :
    sp.width + sp.height < sp.growW w + sp.growH h := by
  by_cases hc : sp.width ≤ sp.height
  · have h1 : sp.growW w = max w sp.width * 2 := by
      unfold ShelfPack.growW
      rw [if_pos (Or.inl hc)]
    have h2 : sp.height ≤ sp.growH h := growH_ge sp h hh
    have h3 : sp.width ≤ max w sp.width := le_max_right w sp.width
    omega
  · have h1 : sp.growH h = max h sp.height * 2 := by
      unfold ShelfPack.growH
      rw [if_pos (Or.inl (lt_of_not_le hc))]
    have h2 : sp.width ≤ sp.growW w := growW_ge sp w hw
    have h3 : sp.height ≤ max h sp.height := le_max_right h sp.height
    omega

lemma growH_covers (sp : ShelfPack) (h : Int)
    (hy : shelvesHeight sp.shelves ≤ sp.height)
    (hcond : sp.height < sp.width ∨ sp.height < h) :
    shelvesHeight sp.shelves + h ≤ sp.growH h := by
  unfold ShelfPack.growH
  rw [if_pos hcond]
  have h1 : h ≤ max h sp.height := le_max_left h sp.height
  have h2 : sp.height ≤ max h sp.height := le_max_right h sp.height
  omega

/-! ### Success of packOne under sufficient space -/

lemma packOne_succeeds_of_scan_some (fuel : Nat) (sp : ShelfPack) (id w h : Int) (i : Nat)
    (hs : packScan w h sp.shelves 0 Option.none int32Max = Option.some i) :
    ∃ b sp2, ShelfPack.packOne fuel sp id w h = (Option.some b, sp2) := by
  rcases packScan_some_good w h sp.shelves 0 Option.none int32Max i hs with hacc |
    ⟨k, s, hk, hj, hws, hhs⟩
  · exact Option.noConfusion hacc
  · have hget : (sp.count h).shelves[i]? = Option.some s := by
      show sp.shelves[i]? = Option.some s
      rw [hj, Nat.zero_add]
      exact hk
    exact ⟨_, _, by
      rw [packOne_scan_some fuel sp id w h i hs,
        allocAt_success (sp.count h) i id w h s hget hws hhs]⟩

lemma packOne_succeeds_of_fits (fuel : Nat) (sp : ShelfPack) (id w h : Int)
    (hh : shelvesHeight sp.shelves + h ≤ sp.height) (hw : w ≤ sp.width) :
    ∃ b sp2, ShelfPack.packOne fuel sp id w h = (Option.some b, sp2) := by
  rcases hscan : packScan w h sp.shelves 0 Option.none int32Max with _ | i
  · exact ⟨_, _, packOne_new_shelf_eq fuel sp id w h hscan hh hw⟩
  · exact packOne_succeeds_of_scan_some fuel sp id w h i hscan

lemma packOne_grow_eq (fuel : Nat) (sp : ShelfPack) (id w h : Int)
    (hAR : sp.autoResize = true)
    (hs : packScan w h sp.shelves 0 Option.none int32Max = Option.none)
    (hnofit : ¬(h ≤ sp.height - shelvesHeight sp.shelves ∧ w ≤ sp.width)) :
    ShelfPack.packOne (fuel + 1) sp id w h =
      ShelfPack.packOne fuel ((sp.resize (sp.growW w) (sp.growH h)).2) id w h := by
  rw [packOne_succ, packOneBody_grow sp id w h _ hs hnofit hAR]

/-- With auto-resize on, positive request and surface dimensions and shelves
fitting the surface, enough retries always reach a successful placement. -/
lemma packOne_reaches_success (w h : Int) (hw : 1 ≤ w) (hh : 1 ≤ h) :
    ∀ (μ : Nat) (sp : ShelfPack) (id : Int),
      sp.autoResize = true → 1 ≤ sp.width → 1 ≤ sp.height →
      shelvesHeight sp.shelves ≤ sp.height →
      (sp.height + 1 - sp.width).toNat ≤ μ →
      ∃ n b sp2, ShelfPack.packOne n sp id w h = (Option.some b, sp2) := by
  intro μ
  induction μ using Nat.strong_induction_on with
  | _ μ ih =>
    intro sp id hAR hW hH hy hμ
    rcases hscan : packScan w h sp.shelves 0 Option.none int32Max with _ | i
    case some =>
      obtain ⟨b, sp2, hb⟩ := packOne_succeeds_of_scan_some 0 sp id w h i hscan
      exact ⟨0, b, sp2, hb⟩
    case none =>
    by_cases hfit : h ≤ sp.height - shelvesHeight sp.shelves ∧ w ≤ sp.width
    · obtain ⟨b, sp2, hb⟩ := packOne_succeeds_of_fits 0 sp id w h (by omega) hfit.2
      exact ⟨0, b, sp2, hb⟩
    · set sp1 := (sp.resize (sp.growW w) (sp.growH h)).2 with hsp1
      have hAR1 : sp1.autoResize = true := hAR
      have hW1 : sp.width ≤ sp1.width := growW_ge sp w (by omega)
      have hH1 : sp.height ≤ sp1.height := growH_ge sp h (by omega)
      have hy1 : shelvesHeight sp1.shelves = shelvesHeight sp.shelves :=
        resize_shelvesHeight sp _ _
      by_cases hgrow : sp.height < sp.width ∨ sp.height < h
      · have hcov : shelvesHeight sp1.shelves + h ≤ sp1.height := by
          rw [hy1]
          exact growH_covers sp h hy hgrow
        by_cases hw2 : w ≤ sp1.width
        · obtain ⟨b, sp2, hb⟩ := packOne_succeeds_of_fits 0 sp1 id w h hcov hw2
          refine ⟨1, b, sp2, ?_⟩
          rw [packOne_grow_eq 0 sp id w h hAR hscan hfit, ← hsp1, hb]
        · rcases hscan1 : packScan w h sp1.shelves 0 Option.none int32Max with _ | i1
          · have hnofit1 : ¬(h ≤ sp1.height - shelvesHeight sp1.shelves ∧ w ≤ sp1.width) :=
              fun hc => hw2 hc.2
            set sp2s := (sp1.resize (sp1.growW w) (sp1.growH h)).2 with hsp2
            have hgw : sp1.growW w = max w sp1.width * 2 := by
              unfold ShelfPack.growW
              rw [if_pos (Or.inr (lt_of_not_le hw2))]
            have hwle : w ≤ sp2s.width := by
              show w ≤ sp1.growW w
              rw [hgw]
              have h4 : w ≤ max w sp1.width := le_max_left w sp1.width
              omega
            have hcov2 : shelvesHeight sp2s.shelves + h ≤ sp2s.height := by
              have hy2 : shelvesHeight sp2s.shelves = shelvesHeight sp1.shelves :=
                resize_shelvesHeight sp1 _ _
              have hh2 : sp1.height ≤ sp2s.height := growH_ge sp1 h (by omega)
              omega
            obtain ⟨b, sp3, hb⟩ := packOne_succeeds_of_fits 0 sp2s id w h hcov2 hwle
            refine ⟨2, b, sp3, ?_⟩
            rw [packOne_grow_eq 1 sp id w h hAR hscan hfit, ← hsp1,
              packOne_grow_eq 0 sp1 id w h hAR1 hscan1 hnofit1, ← hsp2, hb]
          · obtain ⟨b, sp2, hb⟩ := packOne_succeeds_of_scan_some 0 sp1 id w h i1 hscan1
            refine ⟨1, b, sp2, ?_⟩
            rw [packOne_grow_eq 0 sp id w h hAR hscan hfit, ← hsp1, hb]
      · have hgrow2 : sp.width ≤ sp.height ∧ h ≤ sp.height := by
          push_neg at hgrow
          exact hgrow
        have hgW : sp1.width = max w sp.width * 2 := by
          show sp.growW w = max w sp.width * 2
          unfold ShelfPack.growW
          rw [if_pos (Or.inl hgrow2.1)]
        have hgH : sp1.height = sp.height := by
          show sp.growH h = sp.height
          unfold ShelfPack.growH
          rw [if_neg hgrow]
        have hmeasure : (sp1.height + 1 - sp1.width).toNat < (sp.height + 1 - sp.width).toNat := by
          have hb : (0 : Int) < sp.height + 1 - sp.width := by omega
          apply (Int.toNat_lt_toNat hb).mpr
          have h3 : sp.width ≤ max w sp.width := le_max_right w sp.width
          have h4 : w ≤ max w sp.width := le_max_left w sp.width
          rw [hgH, hgW]
          omega
        obtain ⟨n, b, sp2, hb⟩ := ih (sp1.height + 1 - sp1.width).toNat
          (lt_of_lt_of_le hmeasure hμ) sp1 id hAR1 (by omega) (by omega)
          (by omega) (le_refl _)
        refine ⟨n + 1, b, sp2, ?_⟩
        rw [packOne_grow_eq n sp id w h hAR hscan hfit, ← hsp1, hb]

/-! ### Height bookkeeping helpers -/

lemma shelvesHeight_nonneg (l : List Shelf) (hpos : ∀ t ∈ l, 0 ≤ t.h) :
    0 ≤ shelvesHeight l := by
  induction l with
  | nil => simp [shelvesHeight]
  | cons a t ih =>
    have h1 : 0 ≤ a.h := hpos a (List.mem_cons_self a t)
    have h2 : 0 ≤ shelvesHeight t := ih (fun u hu => hpos u (List.mem_cons_of_mem a hu))
    unfold shelvesHeight at *
    simp only [List.map_cons, List.sum_cons]
    omega

lemma height_le_shelvesHeight (l : List Shelf) :
    ∀ (k : Nat) (s : Shelf), l[k]? = Option.some s → (∀ t ∈ l, 0 ≤ t.h) →
      s.h ≤ shelvesHeight l := by
  induction l with
  | nil =>
    intro k s hk _
    simp at hk
  | cons a t ih =>
    intro k s hk hpos
    have h2 : 0 ≤ shelvesHeight t :=
      shelvesHeight_nonneg t (fun u hu => hpos u (List.mem_cons_of_mem a hu))
    cases k with
    | zero =>
      simp only [List.getElem?_cons_zero, Option.some.injEq] at hk
      subst hk
      unfold shelvesHeight at *
      simp only [List.map_cons, List.sum_cons]
      omega
    | succ k =>
      have h1 := ih k s (by simpa using hk) (fun u hu => hpos u (List.mem_cons_of_mem a hu))
      have h3 : 0 ≤ a.h := hpos a (List.mem_cons_self a t)
      unfold shelvesHeight at *
      simp only [List.map_cons, List.sum_cons]
      omega

lemma shelvesHeight_append_one (l : List Shelf) (s : Shelf) :
    shelvesHeight (l ++ [s]) = shelvesHeight l + s.h := by
  unfold shelvesHeight
  simp

lemma shelvesHeight_set (l : List Shelf) :
    ∀ (i : Nat) (s s2 : Shelf), l[i]? = Option.some s → s2.h = s.h →
      shelvesHeight (l.set i s2) = shelvesHeight l := by
  induction l with
  | nil =>
    intro i s s2 hget _
    simp at hget
  | cons a t ih =>
    intro i s s2 hget hh
    cases i with
    | zero =>
      simp only [List.getElem?_cons_zero, Option.some.injEq] at hget
      subst hget
      unfold shelvesHeight
      simp only [List.set_cons_zero, List.map_cons, List.sum_cons, hh]
    | succ i =>
      have := ih i s s2 (by simpa using hget) hh
      unfold shelvesHeight at *
      simp only [List.set_cons_succ, List.map_cons, List.sum_cons, this]

/-! ### Preservation of the shelf-collection invariant -/

lemma count_inv (sp : ShelfPack) (h : Int) (hInv : sp.Inv) : (sp.count h).Inv := hInv

lemma resize_inv (sp : ShelfPack) (w2 h2 : Int) (hInv : sp.Inv)
    (hw : sp.width ≤ w2) (hh : sp.height ≤ h2) : ((sp.resize w2 h2).2).Inv := by
  obtain ⟨hsh, hsum⟩ := hInv
  constructor
  · intro s hs
    rw [show ((sp.resize w2 h2).2).shelves = sp.shelves.map (fun t => (t.resize w2).2) from rfl]
      at hs
    obtain ⟨u, hu, hueq⟩ := List.mem_map.1 hs
    obtain ⟨hw', hwf0, hwfle, hh'⟩ := hsh u hu
    subst hueq
    refine ⟨rfl, ?_, ?_, ?_⟩
    · show 0 ≤ u.wfree + (w2 - u.w)
      omega
    · show u.wfree + (w2 - u.w) ≤ w2
      omega
    · exact hh'
  · show shelvesHeight ((sp.resize w2 h2).2).shelves ≤ h2
    rw [resize_shelvesHeight]
    omega

lemma allocAt_inv (sp : ShelfPack) (i : Nat) (id w h : Int) (hInv : sp.Inv) (hw : 0 ≤ w) :
    ((sp.allocAt i id w h).2).Inv := by
  unfold ShelfPack.allocAt
  rcases hget : sp.shelves[i]? with _ | shelf
  · exact hInv
  · simp only []
    obtain ⟨hsh, hsum⟩ := hInv
    have hmem : shelf ∈ sp.shelves := List.getElem?_mem hget
    by_cases hc : shelf.wfree < w ∨ shelf.h < h
    · rw [alloc_fail_eq shelf id w h hc]
      constructor
      · intro s hs
        rcases List.mem_or_eq_of_mem_set hs with hs' | hs'
        · exact hsh s hs'
        · rw [hs']
          exact hsh shelf hmem
      · show shelvesHeight (sp.shelves.set i shelf) ≤ sp.height
        rw [shelvesHeight_set sp.shelves i shelf shelf hget rfl]
        exact hsum
    · rw [alloc_success_eq shelf id w h hc]
      push_neg at hc
      obtain ⟨hw', hwf0, hwfle, hh'⟩ := hsh shelf hmem
      constructor
      · intro s hs
        rcases List.mem_or_eq_of_mem_set hs with hs' | hs'
        · exact hsh s hs'
        · subst hs'
          exact ⟨hw', by show 0 ≤ shelf.wfree - w; omega,
            by show shelf.wfree - w ≤ shelf.w; omega, hh'⟩
      · show shelvesHeight
            (sp.shelves.set i { shelf with x := shelf.x + w, wfree := shelf.wfree - w }) ≤
          sp.height
        rw [shelvesHeight_set sp.shelves i shelf
          { shelf with x := shelf.x + w, wfree := shelf.wfree - w } hget rfl]
        exact hsum

lemma packOneBody_inv (sp : ShelfPack) (id w h : Int)
    (retry : ShelfPack → Option Bin × ShelfPack)
    (hInv : sp.Inv) (hw : 0 ≤ w) (hh : 0 ≤ h)
    (hretry : ∀ sp1, sp1.Inv → ((retry sp1).2).Inv) :
    ((ShelfPack.packOneBody sp id w h retry).2).Inv := by
  rcases hscan : packScan w h sp.shelves 0 Option.none int32Max with _ | i
  · by_cases hfit : h ≤ sp.height - shelvesHeight sp.shelves ∧ w ≤ sp.width
    · rw [packOneBody_new_shelf sp id w h retry hscan hfit]
      have hcond : ¬((Shelf.make (shelvesHeight sp.shelves) sp.width h).wfree < w ∨
          (Shelf.make (shelvesHeight sp.shelves) sp.width h).h < h) := by
        push_neg
        exact ⟨hfit.2, le_refl h⟩
      simp only [alloc_success_eq _ id w h hcond]
      obtain ⟨hsh, hsum⟩ := hInv
      constructor
      · intro s hs
        rcases List.mem_append.1 hs with hs' | hs'
        · exact hsh s hs'
        · simp only [List.mem_singleton] at hs'
          subst hs'
          exact ⟨rfl, by show (0 : Int) ≤ sp.width - w; omega,
            by show sp.width - w ≤ sp.width; omega, hh⟩
      · show shelvesHeight (sp.shelves ++ [_]) ≤ sp.height
        rw [shelvesHeight_append_one]
        show shelvesHeight sp.shelves + h ≤ sp.height
        omega
    · by_cases hAR : sp.autoResize = true
      · rw [packOneBody_grow sp id w h retry hscan hfit hAR]
        exact hretry _ (resize_inv sp _ _ hInv (growW_ge sp w hw) (growH_ge sp h hh))
      · rw [packOneBody_no_space sp id w h retry hscan hfit (by
          revert hAR
          cases sp.autoResize <;> simp)]
        exact hInv
  · rw [packOneBody_scan_some sp id w h retry i hscan]
    exact allocAt_inv (sp.count h) i id w h hInv hw

lemma packOne_inv : ∀ (fuel : Nat) (sp : ShelfPack) (id w h : Int),
    sp.Inv → 0 ≤ w → 0 ≤ h → ((ShelfPack.packOne fuel sp id w h).2).Inv := by
  intro fuel
  induction fuel with
  | zero =>
    intro sp id w h hInv hw hh
    rw [packOne_zero]
    exact packOneBody_inv sp id w h _ hInv hw hh (fun _ _ => hInv)
  | succ f ih =>
    intro sp id w h hInv hw hh
    rw [packOne_succ]
    exact packOneBody_inv sp id w h _ hInv hw hh (fun sp1 h1 => ih sp1 id w h h1 hw hh)

/-! ### Bounds on the surface after a successful placement -/

lemma packOneBody_success_bounds (sp : ShelfPack) (id w h : Int)
    (retry : ShelfPack → Option Bin × ShelfPack) (b : Bin) (sp2 : ShelfPack)
    (hInv : sp.Inv) (hw : 0 ≤ w) (hh : 0 ≤ h)
    (hretry : ∀ sp1 b1 sp3, sp1.Inv → retry sp1 = (Option.some b1, sp3) →
      w ≤ sp3.width ∧ h ≤ sp3.height)
    (heq : ShelfPack.packOneBody sp id w h retry = (Option.some b, sp2)) :
    w ≤ sp2.width ∧ h ≤ sp2.height := by
  rcases hscan : packScan w h sp.shelves 0 Option.none int32Max with _ | i
  · by_cases hfit : h ≤ sp.height - shelvesHeight sp.shelves ∧ w ≤ sp.width
    · rw [packOneBody_new_shelf sp id w h retry hscan hfit] at heq
      have hy0 : 0 ≤ shelvesHeight sp.shelves :=
        shelvesHeight_nonneg _ (fun t ht => (hInv.1 t ht).2.2.2)
      have hW2 : sp.width = sp2.width := congrArg (fun p => (Prod.snd p).width) heq
      have hH2 : sp.height = sp2.height := congrArg (fun p => (Prod.snd p).height) heq
      constructor
      · omega
      · omega
    · by_cases hAR : sp.autoResize = true
      · rw [packOneBody_grow sp id w h retry hscan hfit hAR] at heq
        exact hretry _ b sp2
          (resize_inv sp _ _ hInv (growW_ge sp w hw) (growH_ge sp h hh)) heq
      · rw [packOneBody_no_space sp id w h retry hscan hfit (by
          revert hAR
          cases sp.autoResize <;> simp)] at heq
        exact absurd (congrArg Prod.fst heq) (by simp)
  · rw [packOneBody_scan_some sp id w h retry i hscan] at heq
    rcases packScan_some_good w h sp.shelves 0 Option.none int32Max i hscan with hacc |
      ⟨k, s, hk, hj, hws, hhs⟩
    · exact Option.noConfusion hacc
    · have hget : (sp.count h).shelves[i]? = Option.some s := by
        show sp.shelves[i]? = Option.some s
        rw [hj, Nat.zero_add]
        exact hk
      rw [allocAt_success (sp.count h) i id w h s hget hws hhs] at heq
      have hmem : s ∈ sp.shelves := List.getElem?_mem hk
      obtain ⟨hw', hwf0, hwfle, hh'⟩ := hInv.1 s hmem
      have hhle : s.h ≤ shelvesHeight sp.shelves :=
        height_le_shelvesHeight sp.shelves k s hk (fun t ht => (hInv.1 t ht).2.2.2)
      have hsum := hInv.2
      have hW2 : sp.width = sp2.width := congrArg (fun p => (Prod.snd p).width) heq
      have hH2 : sp.height = sp2.height := congrArg (fun p => (Prod.snd p).height) heq
      constructor
      · omega
      · omega

lemma packOne_success_bounds : ∀ (fuel : Nat) (sp : ShelfPack) (id w h : Int) (b : Bin)
    (sp2 : ShelfPack), sp.Inv → 0 ≤ w → 0 ≤ h →
    ShelfPack.packOne fuel sp id w h = (Option.some b, sp2) →
    w ≤ sp2.width ∧ h ≤ sp2.height := by
  intro fuel
  induction fuel with
  | zero =>
    intro sp id w h b sp2 hInv hw hh heq
    rw [packOne_zero] at heq
    refine packOneBody_success_bounds sp id w h _ b sp2 hInv hw hh ?_ heq
    intro sp1 b1 sp3 _ hr
    exact absurd (congrArg Prod.fst hr) (by simp)
  | succ f ih =>
    intro sp id w h b sp2 hInv hw hh heq
    rw [packOne_succ] at heq
    refine packOneBody_success_bounds sp id w h _ b sp2 hInv hw hh ?_ heq
    intro sp1 b1 sp3 hInv1 hr
    exact ih sp1 id w h b1 sp3 hInv1 hw hh hr

/-! ### Claim C7: auto-resize terminates in success -/

/-- Claim C7: with auto-resize enabled, a positive request on a positive
surface whose shelves satisfy the collection invariant always reaches a
successful placement after finitely many grow-and-retry steps, and the final
surface is at least as wide and as tall as the request (so any axis the
request exceeded ends at least at the requested size); moreover a single
growth step never shrinks either dimension and always strictly increases the
total surface extent. -/
theorem packOne_autoResize_terminates (sp : ShelfPack) (id w h : Int)
    (hAR : sp.autoResize = true) (hw : 1 ≤ w) (hh : 1 ≤ h)
    (hW : 1 ≤ sp.width) (hH : 1 ≤ sp.height) (hInv : sp.Inv) :
    (∃ n b sp2, ShelfPack.packOne n sp id w h = (Option.some b, sp2) ∧
      w ≤ sp2.width ∧ h ≤ sp2.height) ∧
    sp.width ≤ sp.growW w ∧ sp.height ≤ sp.growH h ∧
    sp.width + sp.height < sp.growW w + sp.growH h := by
  refine ⟨?_, growW_ge sp w (by omega), growH_ge sp h (by omega),
    grow_strict sp w h hW hH (by omega) (by omega)⟩
  obtain ⟨n, b, sp2, hb⟩ := packOne_reaches_success w h hw hh
    (sp.height + 1 - sp.width).toNat sp id hAR hW hH hInv.2 (le_refl _)
  exact ⟨n, b, sp2, hb,
    (packOne_success_bounds n sp id w h b sp2 hInv (by omega) (by omega) hb).1,
    (packOne_success_bounds n sp id w h b sp2 hInv (by omega) (by omega) hb).2⟩

/-! ### Batch packing and the final shrink (claim C8) -/

lemma packLoop_nil (fuel : Nat) (sp : ShelfPack) (ip : Bool) :
    ShelfPack.packLoop fuel sp [] ip = ([], [], sp) := rfl

lemma packLoop_cons (fuel : Nat) (sp : ShelfPack) (bin : Bin) (rest : List Bin) (ip : Bool) :
    ShelfPack.packLoop fuel sp (bin :: rest) ip =
      (if bin.w ≠ 0 ∧ bin.h ≠ 0 then
        (let r := ShelfPack.packOne fuel sp bin.id bin.w bin.h
         match r.1 with
         | Option.none =>
           let t := ShelfPack.packLoop fuel r.2 rest ip
           (t.1, bin :: t.2.1, t.2.2)
         | Option.some b =>
           let bin1 := if ip then { bin with x := b.x, y := b.y } else bin
           let t := ShelfPack.packLoop fuel r.2 rest ip
           (b :: t.1, bin1 :: t.2.1, t.2.2))
      else
        (let t := ShelfPack.packLoop fuel sp rest ip
         (t.1, bin :: t.2.1, t.2.2))) := rfl

lemma packLoop_inv : ∀ (fuel : Nat) (bins : List Bin) (sp : ShelfPack) (ip : Bool),
    sp.Inv → (∀ b ∈ bins, 0 ≤ b.w ∧ 0 ≤ b.h) →
    ((ShelfPack.packLoop fuel sp bins ip).2.2).Inv := by
  intro fuel bins
  induction bins with
  | nil =>
    intro sp ip hInv _
    exact hInv
  | cons bin rest ih =>
    intro sp ip hInv hbins
    have hb := hbins bin (List.mem_cons_self bin rest)
    have hrest : ∀ b ∈ rest, 0 ≤ b.w ∧ 0 ≤ b.h :=
      fun b hb2 => hbins b (List.mem_cons_of_mem bin hb2)
    rw [packLoop_cons]
    by_cases hg : bin.w ≠ 0 ∧ bin.h ≠ 0
    · rw [if_pos hg]
      have hInv1 : ((ShelfPack.packOne fuel sp bin.id bin.w bin.h).2).Inv :=
        packOne_inv fuel sp bin.id bin.w bin.h hInv hb.1 hb.2
      rcases hr : (ShelfPack.packOne fuel sp bin.id bin.w bin.h).1 with _ | b
      · simp only [hr]
        exact ih _ ip hInv1 hrest
      · simp only [hr]
        exact ih _ ip hInv1 hrest
    · rw [if_neg hg]
      exact ih sp ip hInv hrest

lemma usedW_resize (s : Shelf) (w : Int) : usedW ((s.resize w).2) = usedW s := by
  show w - (s.wfree + (w - s.w)) = s.w - s.wfree
  omega

lemma shrinkW_map_resize (l : List Shelf) (w : Int) :
    shrinkW (l.map fun s => (s.resize w).2) = shrinkW l := by
  unfold shrinkW
  suffices hgen : ∀ a0 : Int,
      (l.map fun s => (s.resize w).2).foldl (fun acc s => max (usedW s) acc) a0 =
        l.foldl (fun acc s => max (usedW s) acc) a0 from hgen 0
  induction l with
  | nil => intro a0; rfl
  | cons a t ih =>
    intro a0
    simp only [List.map_cons, List.foldl_cons, usedW_resize]
    exact ih _

lemma shrinkW_le_aux (bound : Int) : ∀ (l : List Shelf) (a0 : Int), a0 ≤ bound →
    (∀ s ∈ l, usedW s ≤ bound) → l.foldl (fun acc s => max (usedW s) acc) a0 ≤ bound := by
  intro l
  induction l with
  | nil =>
    intro a0 ha0 _
    exact ha0
  | cons a t ih =>
    intro a0 ha0 hall2
    simp only [List.foldl_cons]
    exact ih _ (max_le (hall2 a (List.mem_cons_self a t)) ha0)
      (fun s hs => hall2 s (List.mem_cons_of_mem a hs))

lemma shrinkW_le (l : List Shelf) (bound : Int) (hW : 0 ≤ bound)
    (hall : ∀ s ∈ l, usedW s ≤ bound) : shrinkW l ≤ bound :=
  shrinkW_le_aux bound l 0 hW hall

/-- Claim C8: after `pack` finishes with at least one shelf present, the
recorded surface width equals the fold of used shelf widths (the maximum used
width) and the recorded height equals the sum of the shelf heights; the final
adjustment never enlarges the post-loop recorded bounds and returns exactly
the placements computed by the loop, so no placed bin `x` or `y` changes. -/
theorem pack_shrinks_to_minimal_bounds (fuel : Nat) (sp : ShelfPack) (bins : List Bin)
    (ip : Bool) (hInv : sp.Inv) (hbins : ∀ b ∈ bins, 0 ≤ b.w ∧ 0 ≤ b.h) :
    (ShelfPack.pack fuel sp bins ip).1 = (ShelfPack.packLoop fuel sp bins ip).1 ∧
    (ShelfPack.pack fuel sp bins ip).2.1 = (ShelfPack.packLoop fuel sp bins ip).2.1 ∧
    ((ShelfPack.pack fuel sp bins ip).2.2.shelves ≠ [] →
      (ShelfPack.pack fuel sp bins ip).2.2.width =
        shrinkW (ShelfPack.pack fuel sp bins ip).2.2.shelves ∧
      (ShelfPack.pack fuel sp bins ip).2.2.height =
        shelvesHeight (ShelfPack.pack fuel sp bins ip).2.2.shelves) ∧
    (ShelfPack.pack fuel sp bins ip).2.2.width ≤
      (ShelfPack.packLoop fuel sp bins ip).2.2.width ∧
    (ShelfPack.pack fuel sp bins ip).2.2.height ≤
      (ShelfPack.packLoop fuel sp bins ip).2.2.height := by
  have hInvL : ((ShelfPack.packLoop fuel sp bins ip).2.2).Inv :=
    packLoop_inv fuel bins sp ip hInv hbins
  by_cases hne : (ShelfPack.packLoop fuel sp bins ip).2.2.shelves ≠ []
  · have hpack : ShelfPack.pack fuel sp bins ip =
        ((ShelfPack.packLoop fuel sp bins ip).1, (ShelfPack.packLoop fuel sp bins ip).2.1,
         ((ShelfPack.packLoop fuel sp bins ip).2.2.resize
            (shrinkW (ShelfPack.packLoop fuel sp bins ip).2.2.shelves)
            (shelvesHeight (ShelfPack.packLoop fuel sp bins ip).2.2.shelves)).2) := by
      show (if (ShelfPack.packLoop fuel sp bins ip).2.2.shelves ≠ [] then
              ((ShelfPack.packLoop fuel sp bins ip).1, (ShelfPack.packLoop fuel sp bins ip).2.1,
               ((ShelfPack.packLoop fuel sp bins ip).2.2.resize
                  (shrinkW (ShelfPack.packLoop fuel sp bins ip).2.2.shelves)
                  (shelvesHeight (ShelfPack.packLoop fuel sp bins ip).2.2.shelves)).2)
            else ShelfPack.packLoop fuel sp bins ip) = _
      rw [if_pos hne]
    obtain ⟨s0, hs0⟩ := List.exists_mem_of_ne_nil _ hne
    obtain ⟨hs0w, hs0f0, hs0fle, _⟩ := hInvL.1 s0 hs0
    have hW0 : 0 ≤ (ShelfPack.packLoop fuel sp bins ip).2.2.width := by omega
    have hallused : ∀ s ∈ (ShelfPack.packLoop fuel sp bins ip).2.2.shelves,
        usedW s ≤ (ShelfPack.packLoop fuel sp bins ip).2.2.width := by
      intro s hs
      obtain ⟨hw1, hw2, hw3, _⟩ := hInvL.1 s hs
      unfold usedW
      omega
    rw [hpack]
    refine ⟨rfl, rfl, ?_, ?_, ?_⟩
    · intro _
      constructor
      · show shrinkW (ShelfPack.packLoop fuel sp bins ip).2.2.shelves =
          shrinkW ((ShelfPack.packLoop fuel sp bins ip).2.2.shelves.map
            fun s => (s.resize (shrinkW (ShelfPack.packLoop fuel sp bins ip).2.2.shelves)).2)
        exact (shrinkW_map_resize _ _).symm
      · exact (resize_shelvesHeight _ _ _).symm
    · show shrinkW (ShelfPack.packLoop fuel sp bins ip).2.2.shelves ≤
        (ShelfPack.packLoop fuel sp bins ip).2.2.width
      exact shrinkW_le _ _ hW0 hallused
    · show shelvesHeight (ShelfPack.packLoop fuel sp bins ip).2.2.shelves ≤
        (ShelfPack.packLoop fuel sp bins ip).2.2.height
      exact hInvL.2
  · have hpack : ShelfPack.pack fuel sp bins ip = ShelfPack.packLoop fuel sp bins ip := by
      show (if (ShelfPack.packLoop fuel sp bins ip).2.2.shelves ≠ [] then
              ((ShelfPack.packLoop fuel sp bins ip).1, (ShelfPack.packLoop fuel sp bins ip).2.1,
               ((ShelfPack.packLoop fuel sp bins ip).2.2.resize
                  (shrinkW (ShelfPack.packLoop fuel sp bins ip).2.2.shelves)
                  (shelvesHeight (ShelfPack.packLoop fuel sp bins ip).2.2.shelves)).2)
            else ShelfPack.packLoop fuel sp bins ip) = _
      rw [if_neg hne]
    rw [hpack]
    exact ⟨rfl, rfl, fun hne2 => absurd (not_not.1 hne) hne2, le_refl _, le_refl _⟩

/-- The bin batch of the C8 witness. -/
def w8Bins : List Bin :=
  [Bin.mk 1 10 10 (-1) (-1), Bin.mk 2 5 15 (-1) (-1), Bin.mk 3 25 15 (-1) (-1)]

/-- Witness for C8: packing three bins into a fresh 60x60 packer shrinks the
surface to the 30x25 bounding box of the used space. -/
theorem pack_shrinks_to_minimal_bounds_witness :
    (ShelfPack.make 60 60 false).Inv ∧ (∀ b ∈ w8Bins, 0 ≤ b.w ∧ 0 ≤ b.h) ∧
    ((ShelfPack.pack 5 (ShelfPack.make 60 60 false) w8Bins false).1 =
      (ShelfPack.packLoop 5 (ShelfPack.make 60 60 false) w8Bins false).1 ∧
    (ShelfPack.pack 5 (ShelfPack.make 60 60 false) w8Bins false).2.1 =
      (ShelfPack.packLoop 5 (ShelfPack.make 60 60 false) w8Bins false).2.1 ∧
    ((ShelfPack.pack 5 (ShelfPack.make 60 60 false) w8Bins false).2.2.shelves ≠ [] →
      (ShelfPack.pack 5 (ShelfPack.make 60 60 false) w8Bins false).2.2.width =
        shrinkW (ShelfPack.pack 5 (ShelfPack.make 60 60 false) w8Bins false).2.2.shelves ∧
      (ShelfPack.pack 5 (ShelfPack.make 60 60 false) w8Bins false).2.2.height =
        shelvesHeight (ShelfPack.pack 5 (ShelfPack.make 60 60 false) w8Bins false).2.2.shelves) ∧
    (ShelfPack.pack 5 (ShelfPack.make 60 60 false) w8Bins false).2.2.width ≤
      (ShelfPack.packLoop 5 (ShelfPack.make 60 60 false) w8Bins false).2.2.width ∧
    (ShelfPack.pack 5 (ShelfPack.make 60 60 false) w8Bins false).2.2.height ≤
      (ShelfPack.packLoop 5 (ShelfPack.make 60 60 false) w8Bins false).2.2.height) :=
  ⟨by decide, by decide,
   pack_shrinks_to_minimal_bounds 5 (ShelfPack.make 60 60 false) w8Bins false
     (by decide) (by decide)⟩

/-- Witness for C7: a 25x3 request (wider than the surface) on a fresh 10x10
auto-resizing packer. -/
theorem packOne_autoResize_terminates_witness :
    (ShelfPack.make 10 10 true).autoResize = true ∧
    (1 : Int) ≤ 25 ∧ (1 : Int) ≤ 3 ∧
    (1 : Int) ≤ (ShelfPack.make 10 10 true).width ∧
    (1 : Int) ≤ (ShelfPack.make 10 10 true).height ∧
    (ShelfPack.make 10 10 true).Inv ∧
    ((∃ n b sp2, ShelfPack.packOne n (ShelfPack.make 10 10 true) 1 25 3 =
        (Option.some b, sp2) ∧ (25 : Int) ≤ sp2.width ∧ (3 : Int) ≤ sp2.height) ∧
      (ShelfPack.make 10 10 true).width ≤ (ShelfPack.make 10 10 true).growW 25 ∧
      (ShelfPack.make 10 10 true).height ≤ (ShelfPack.make 10 10 true).growH 3 ∧
      (ShelfPack.make 10 10 true).width + (ShelfPack.make 10 10 true).height <
        (ShelfPack.make 10 10 true).growW 25 + (ShelfPack.make 10 10 true).growH 3) :=
  ⟨rfl, by decide, by decide, by decide, by decide, by decide,
   packOne_autoResize_terminates (ShelfPack.make 10 10 true) 1 25 3 rfl (by decide)
     (by decide) (by decide) (by decide) (by decide)⟩

end Mapbox
